import Mathlib

/-!
Verification of the adaptive engagement engine (backend/engagement_engine.py).

The engine's per-(user, concept) mastery record, its answer-processing update
path, the mastery judge, the answer evaluator, the recall predictor, the
rescue stage of the scheduler and the mode selector are embedded as Lean
functions below.  Conventions of the embedding:

* Timestamps are rationals measured in hours (the recall predictor works in
  hours; 7 days = 168 hours, 5 minutes = 1/12 hour).
* Python float arithmetic on the tracked metrics is modelled exactly over the
  rationals; the recall predictor, whose formula is genuinely real-valued
  (powers, log, exp), is modelled over the reals.
* Nullable integer columns (the average and baseline response times) are
  modelled as Option Nat; Python truthiness on them (None and 0 are both
  falsy) is the function pyTruthy.
* Database effects are made explicit: the predicted-recall value that
  _update_concept_state obtains from _calculate_predicted_recall (a query
  over the response table) enters updateConceptState as the argument
  newRecall, and the lifetime mastered-concept counter of the user row that
  _check_mastery increments is threaded through checkMastery as an explicit
  argument and result.
-/

/-- The question-presentation modes of EngagementEngine.MODES. -/
inductive Mode where
  | WORKED_EXAMPLE
  | GUIDED_SOLVE
  | COLLABORATIVE
  | RAPID_FIRE
  | FILL_STORY
  | NUMBER_SWAP
  | EXPLAIN_BACK
  | REVERSE_ENGINEER
  | SPOT_ERROR
  | BUILD_MAP
  | MASTERY_VALIDATION
  | MICRO_WINS
deriving DecidableEq

/-- The values the state column of a UserConceptState row takes. -/
inductive StateTag where
  | untouched
  | learning
  | struggling
  | proficient
  | mastered
deriving DecidableEq

/-- The fields of the UserConceptState row (models.py) that the engine reads
or writes on the answer path. -/
structure UserConceptState where
  state : StateTag
  accuracy : ℚ
  total_attempts : ℕ
  correct_attempts : ℕ
  consecutive_perfect : ℕ
  max_streak : ℕ
  avg_response_time_ms : Option ℕ
  baseline_response_time_ms : Option ℕ
  hesitation_count : ℕ
  formats_tested : List Mode
  formats_passed : List Mode
  predicted_recall_probability : ℚ
  last_tested_at : Option ℚ
  mastered_at : Option ℚ
  next_review_at : Option ℚ
deriving DecidableEq

/-- Python truthiness of a nullable integer column: None and 0 are falsy. -/
def pyTruthy : Option ℕ → Bool
  | none => false
  | some v => decide (v ≠ 0)

/-- The lazily created row of _get_or_create_concept_state, with the column
defaults of models.py (state untouched, zero counters, empty format lists,
null response times and timestamps). -/
def initialConceptState : UserConceptState where
  state := StateTag.untouched
  accuracy := 0
  total_attempts := 0
  correct_attempts := 0
  consecutive_perfect := 0
  max_streak := 0
  avg_response_time_ms := none
  baseline_response_time_ms := none
  hesitation_count := 0
  formats_tested := []
  formats_passed := []
  predicted_recall_probability := 0
  last_tested_at := none
  mastered_at := none
  next_review_at := none

/-- Embedding of _update_concept_state.  Arguments mirror the Python call:
the verdict is_correct, the response and hesitation latencies in ms, the
current mode, the wall-clock time now (hours), and newRecall, the value the
call to _calculate_predicted_recall returns (that function reads the
response table; its formula is embedded separately as
calculatePredictedRecall). -/
def updateConceptState (s : UserConceptState) (is_correct : Bool)
    (response_time_ms : ℕ) (hesitation_ms : ℕ) (current_mode : Mode)
    (now : ℚ) (newRecall : ℚ) : UserConceptState :=
  let ta := s.total_attempts + 1
  let ca := s.correct_attempts + (if is_correct then 1 else 0)
  let acc : ℚ := (ca : ℚ) / (ta : ℚ)
  let cp := if is_correct then s.consecutive_perfect + 1 else 0
  let ms := if is_correct then max s.max_streak cp else s.max_streak
  let avg : Option ℕ :=
    if pyTruthy s.avg_response_time_ms then
      some ((s.avg_response_time_ms.getD 0 * (ta - 1) + response_time_ms) / ta)
    else some response_time_ms
  let base : Option ℕ :=
    if pyTruthy s.avg_response_time_ms then s.baseline_response_time_ms
    else some response_time_ms
  let hc := if 2000 < hesitation_ms then s.hesitation_count + 1 else s.hesitation_count
  let ft :=
    if current_mode ∈ s.formats_tested then s.formats_tested
    else s.formats_tested ++ [current_mode]
  let fp :=
    if current_mode ∈ s.formats_tested then s.formats_passed
    else if is_correct then s.formats_passed ++ [current_mode] else s.formats_passed
  let st :=
    if acc < (1 : ℚ)/2 then StateTag.struggling
    else if (99 : ℚ)/100 ≤ acc ∧ 10 ≤ cp then StateTag.proficient
    else if (7 : ℚ)/10 ≤ acc then StateTag.learning
    else StateTag.struggling
  { s with
    total_attempts := ta
    correct_attempts := ca
    accuracy := acc
    consecutive_perfect := cp
    max_streak := ms
    avg_response_time_ms := avg
    baseline_response_time_ms := base
    hesitation_count := hc
    formats_tested := ft
    formats_passed := fp
    last_tested_at := some now
    predicted_recall_probability := newRecall
    state := st }

/-- Embedding of _check_mastery, fail-fast branch by branch.  The user's
lifetime mastered-concept counter is passed in and returned (the Python code
increments user.total_concepts_mastered in place).  Result: (return value,
updated row, updated user counter). -/
def checkMastery (s : UserConceptState) (now : ℚ) (userTotal : ℕ) :
    Bool × UserConceptState × ℕ :=
  if s.state = StateTag.mastered then (false, s, userTotal)
  else if s.accuracy < (99 : ℚ)/100 then (false, s, userTotal)
  else if s.consecutive_perfect < 10 then (false, s, userTotal)
  else if pyTruthy s.baseline_response_time_ms && pyTruthy s.avg_response_time_ms
      && decide ((13 : ℚ)/10 <
          (s.avg_response_time_ms.getD 0 : ℚ) / (s.baseline_response_time_ms.getD 0 : ℚ)) then
    (false, s, userTotal)
  else if 0 < s.formats_tested.length
      && decide ((s.formats_passed.length : ℚ) / (s.formats_tested.length : ℚ) < (8 : ℚ)/10) then
    (false, s, userTotal)
  else if s.predicted_recall_probability < (95 : ℚ)/100 then (false, s, userTotal)
  else
    (true,
     { s with
       state := StateTag.mastered
       mastered_at := some now
       next_review_at := some (now + 168) },
     userTotal + 1)

/-- The five mastery criteria exactly as the specification words them:
accuracy at least 0.99, at least 10 consecutive perfect answers, average
over baseline response time at most 1.3 (vacuous when either is not
recorded), formats passed over formats tested at least 0.8 (vacuous when
nothing was tested), and predicted recall at least 0.95. -/
def masteryCriteria (s : UserConceptState) : Prop :=
  (99 : ℚ)/100 ≤ s.accuracy
  ∧ 10 ≤ s.consecutive_perfect
  ∧ (s.baseline_response_time_ms.isSome ∧ s.avg_response_time_ms.isSome →
      (s.avg_response_time_ms.getD 0 : ℚ) / (s.baseline_response_time_ms.getD 0 : ℚ) ≤ (13 : ℚ)/10)
  ∧ (s.formats_tested ≠ [] →
      (8 : ℚ)/10 ≤ (s.formats_passed.length : ℚ) / (s.formats_tested.length : ℚ))
  ∧ (95 : ℚ)/100 ≤ s.predicted_recall_probability

instance (s : UserConceptState) : Decidable (masteryCriteria s) := by
  unfold masteryCriteria
  infer_instance

/-- The answer-processing path of process_answer on the mastery record:
_update_concept_state followed by _check_mastery. -/
def processAnswerUpdate (s : UserConceptState) (is_correct : Bool)
    (response_time_ms : ℕ) (hesitation_ms : ℕ) (current_mode : Mode)
    (now : ℚ) (newRecall : ℚ) (userTotal : ℕ) : Bool × UserConceptState × ℕ :=
  checkMastery (updateConceptState s is_correct response_time_ms hesitation_ms
    current_mode now newRecall) now userTotal

/-- Embedding of _select_mode on the (fetched or lazily created) concept
state of the current concept. -/
def selectMode (s : UserConceptState) : Mode :=
  if s.state = StateTag.untouched then Mode.GUIDED_SOLVE
  else if s.state = StateTag.struggling then Mode.COLLABORATIVE
  else if s.state = StateTag.learning then
    if s.total_attempts % 3 = 0 then Mode.RAPID_FIRE
    else if s.total_attempts % 3 = 1 then Mode.FILL_STORY
    else Mode.NUMBER_SWAP
  else if s.state = StateTag.proficient then
    if s.total_attempts % 2 = 0 then Mode.EXPLAIN_BACK else Mode.SPOT_ERROR
  else Mode.BUILD_MAP

/-- The mode-selection table as the specification states it: a pure function
of the state tag and the attempt counter. -/
def selectModeSpec (st : StateTag) (total_attempts : ℕ) : Mode :=
  match st with
  | StateTag.untouched => Mode.GUIDED_SOLVE
  | StateTag.struggling => Mode.COLLABORATIVE
  | StateTag.learning =>
    if total_attempts % 3 = 0 then Mode.RAPID_FIRE
    else if total_attempts % 3 = 1 then Mode.FILL_STORY
    else Mode.NUMBER_SWAP
  | StateTag.proficient =>
    if total_attempts % 2 = 0 then Mode.EXPLAIN_BACK else Mode.SPOT_ERROR
  | StateTag.mastered => Mode.BUILD_MAP

/-- The filter of _find_validation_concept on a concept-state row: state is
learning, accuracy at least the 0.99 threshold and consecutive_perfect at
least the threshold of 10. -/
def validationEligible (s : UserConceptState) : Bool :=
  decide (s.state = StateTag.learning)
    && decide ((99 : ℚ)/100 ≤ s.accuracy)
    && decide (10 ≤ s.consecutive_perfect)

/-- Lowercasing of a string, character for character, as str.lower does on
the answer strings. -/
def pyLower (s : String) : String :=
  String.mk (s.data.map Char.toLower)

/-- Whitespace trimming from both ends, as str.strip does. -/
def pyStrip (s : String) : String :=
  String.mk (((s.data.dropWhile Char.isWhitespace).reverse.dropWhile
    Char.isWhitespace).reverse)

/-- Whitespace tokenization, as str.split with no separator: maximal
whitespace runs separate the tokens and produce no empty tokens. -/
def pySplit (s : String) : List String :=
  (s.split Char.isWhitespace).filter (fun w => decide (w ≠ ""))

/-- Embedding of _calculate_similarity: word-overlap (Jaccard) score of the
two whitespace-tokenized strings. -/
def calculateSimilarity (s1 s2 : String) : ℚ :=
  let words1 := (pySplit s1).toFinset
  let words2 := (pySplit s2).toFinset
  if words1 = ∅ ∨ words2 = ∅ then 0
  else ((words1 ∩ words2).card : ℚ) / ((words1 ∪ words2).card : ℚ)

/-- Embedding of _evaluate_answer: (is_correct, is_partial) for a submitted
answer against the reference answer text of the question. -/
def evaluateAnswer (user_answer : String) (answer_text : String) : Bool × Bool :=
  let correct_answer := pyStrip (pyLower answer_text)
  let ua := pyStrip (pyLower user_answer)
  if ua = correct_answer then (true, false)
  else
    let similarity := calculateSimilarity ua correct_answer
    if (9 : ℚ)/10 < similarity then (true, false)
    else if (7 : ℚ)/10 < similarity then (false, true)
    else (false, false)

/-- The evaluator as the specification words it: normalize both strings,
exact match means correct, otherwise the Jaccard index of the two word sets
(zero when either set is empty) decides — correct above 0.9, partial in the
half-open interval from 0.7 exclusive to 0.9 inclusive, incorrect
otherwise. -/
def evaluateAnswerSpec (submitted : String) (reference : String) : Bool × Bool :=
  let ns := pyStrip (pyLower submitted)
  let nr := pyStrip (pyLower reference)
  if ns = nr then (true, false)
  else
    let ws := (pySplit ns).toFinset
    let wr := (pySplit nr).toFinset
    let j : ℚ :=
      if ws = ∅ ∨ wr = ∅ then 0
      else ((ws ∩ wr).card : ℚ) / ((ws ∪ wr).card : ℚ)
    if (9 : ℚ)/10 < j then (true, false)
    else if (7 : ℚ)/10 < j ∧ j ≤ (9 : ℚ)/10 then (false, true)
    else (false, false)

/-- One response row of the current session, with the fields the rescue
stage of the scheduler reads: the concept, the skip flag and the creation
time (hours). -/
structure RespEvent where
  concept_id : ℕ
  skipped : Bool
  created_at : ℚ
deriving DecidableEq

/-- The query of _find_rescue_concept: the response rows of the current
session created within the last 5 minutes (1/12 hour). -/
def recentResponses (events : List RespEvent) (now : ℚ) : List RespEvent :=
  events.filter (fun r => decide (now - 1/12 ≤ r.created_at))

/-- Skip ratio of a list of response rows, 0 on the empty list, as
_find_rescue_concept computes it. -/
def skipRatio (recent : List RespEvent) : ℚ :=
  if recent = [] then 0
  else ((recent.filter (fun r => r.skipped)).length : ℚ) / (recent.length : ℚ)

/-- The concept ids of the skipped rows, in row order: the multiset the
concept_skips dictionary of _find_rescue_concept counts. -/
def skippedConcepts (recent : List RespEvent) : List ℕ :=
  (recent.filter (fun r => r.skipped)).map (fun r => r.concept_id)

/-- The argmax Python's max over the skip-count dictionary computes: the
first concept (in first-occurrence order) whose skip count is maximal.
Replacement only on a strictly greater count reproduces that tie-break. -/
def maxSkipConcept (l : List ℕ) : Option ℕ :=
  l.foldl (fun best c =>
    match best with
    | none => some c
    | some b => if l.count b < l.count c then some c else some b) none

/-- Embedding of _find_rescue_concept: the concept to rescue, if any. -/
def findRescueConcept (events : List RespEvent) (now : ℚ) : Option ℕ :=
  let recent := recentResponses events now
  if recent = [] then none
  else if (3 : ℚ)/10 < skipRatio recent then
    let skips := skippedConcepts recent
    if skips = [] then none else maxSkipConcept skips
  else none

/-- The priority cascade of get_next_question, stages 2 and 3 made explicit
arguments: the validation stage queries concept-state rows and picks one at
random, and the optimal-challenge stage is weighted-random, so the concept
each would deliver enters as a parameter; stage 1 (rescue) is computed. -/
def getNextQuestionSelection (events : List RespEvent) (now : ℚ)
    (validationConcept : Option ℕ) (optimalConcept : ℕ) (optimalMode : Mode) :
    ℕ × Mode :=
  match findRescueConcept events now with
  | some c => (c, Mode.MICRO_WINS)
  | none =>
    match validationConcept with
    | some c => (c, Mode.MASTERY_VALIDATION)
    | none => (optimalConcept, optimalMode)

/-- One call of the answer-processing update, as fed to updateConceptState:
the verdict, the latencies, the mode it was asked in, the wall-clock time
and the freshly computed recall value. -/
structure AnswerInput where
  is_correct : Bool
  response_time_ms : ℕ
  hesitation_ms : ℕ
  mode : Mode
  now : ℚ
  recallValue : ℚ
deriving DecidableEq

/-- Folding a sequence of answer-processing updates over a starting row. -/
def foldAnswers (s : UserConceptState) (inputs : List AnswerInput) : UserConceptState :=
  inputs.foldl (fun acc i =>
    updateConceptState acc i.is_correct i.response_time_ms i.hesitation_ms
      i.mode i.now i.recallValue) s

/-- A sequence of answer-processing updates from the lazily created row. -/
def runAnswers (inputs : List AnswerInput) : UserConceptState :=
  foldAnswers initialConceptState inputs

/-- Whether the first attempt made in mode m across the input sequence was
answered correctly (false when the mode was never attempted). -/
def firstAttemptCorrect (inputs : List AnswerInput) (m : Mode) : Prop :=
  ∃ i, (inputs.filter (fun j => decide (j.mode = m))).head? = some i
    ∧ i.is_correct = true

/-- The activation sum of _calculate_predicted_recall: over the correct
responses of the concept, each elapsed time (now minus the creation time,
in hours) that is positive contributes elapsed to the power minus the decay
rate d = 0.5. -/
noncomputable def activationSum (correctTimes : List ℚ) (now : ℚ) : ℝ :=
  ((correctTimes.filter (fun t => decide (0 < now - t))).map
    (fun t => ((now - t : ℚ) : ℝ) ^ (-(1/2) : ℝ))).sum

open Classical in
/-- Embedding of _calculate_predicted_recall: zero when the row has no
attempts, when the concept has no correct responses, or when the activation
sum is zero; otherwise the logistic of the natural log of the activation
sum.  The correct-response creation times (hours) stand in for the query
over the response table. -/
noncomputable def calculatePredictedRecall (total_attempts : ℕ)
    (correctTimes : List ℚ) (now : ℚ) : ℝ :=
  if total_attempts = 0 then 0
  else if correctTimes = [] then 0
  else if activationSum correctTimes now = 0 then 0
  else 1 / (1 + Real.exp (-(Real.log (activationSum correctTimes now))))

/-- Helper: once the strict upper test at 0.9 has failed, adding the upper
bound to the 0.7 test changes nothing. -/
theorem threshold_if_eq (j : ℚ) :
    (if (9 : ℚ)/10 < j then ((true : Bool), (false : Bool))
     else if (7 : ℚ)/10 < j then (false, true) else (false, false))
    = (if (9 : ℚ)/10 < j then ((true : Bool), (false : Bool))
       else if (7 : ℚ)/10 < j ∧ j ≤ (9 : ℚ)/10 then (false, true)
       else (false, false)) := by
  by_cases h9 : (9 : ℚ)/10 < j
  · simp [h9]
  · by_cases h7 : (7 : ℚ)/10 < j
    · simp [h9, h7, le_of_not_lt h9]
    · simp [h9, h7]

/-- A mastered row as the engine itself produces one: the counters that made
every criterion pass are still in place.  Used to exercise the answer path
on a mastered concept. -/
def masteredExampleState : UserConceptState :=
  { initialConceptState with
    state := StateTag.mastered
    total_attempts := 1
    correct_attempts := 1
    accuracy := 1
    consecutive_perfect := 10
    max_streak := 10
    predicted_recall_probability := 1
    mastered_at := some 0
    next_review_at := some 168 }

/-- Helper: the speed fail-fast test of the code (Python truthiness on both
response-time columns and quotient above 1.3) fires exactly when the
criterion as the specification words it (quotient at most 1.3 whenever both
columns are recorded) is violated; a recorded 0 makes the quotient 0 on the
specification side and is falsy on the code side, so the two agree there
too. -/
theorem speedFail_iff (b a : Option ℕ) :
    (pyTruthy b && pyTruthy a
      && decide ((13 : ℚ)/10 < (a.getD 0 : ℚ) / (b.getD 0 : ℚ))) = true
    ↔ ¬(b.isSome ∧ a.isSome →
        (a.getD 0 : ℚ) / (b.getD 0 : ℚ) ≤ (13 : ℚ)/10) := by
  constructor
  · intro h hc
    simp only [Bool.and_eq_true, decide_eq_true_eq] at h
    obtain ⟨⟨hb, ha⟩, hratio⟩ := h
    have hbs : b.isSome := by cases b <;> simp_all [pyTruthy]
    have has : a.isSome := by cases a <;> simp_all [pyTruthy]
    exact absurd (hc ⟨hbs, has⟩) (not_le.mpr hratio)
  · intro hc
    push_neg at hc
    obtain ⟨⟨hbs, has⟩, hr⟩ := hc
    rcases b with _ | bv
    · simp at hbs
    rcases a with _ | av
    · simp at has
    simp only [Option.getD_some] at hr
    have hbv : bv ≠ 0 := by
      rintro rfl
      norm_num [div_zero] at hr
    have hav : av ≠ 0 := by
      rintro rfl
      norm_num [zero_div] at hr
    simp [pyTruthy, hbv, hav, hr]

/-- Helper: the format fail-fast test of the code fires exactly when the
format-invariance criterion of the specification is violated. -/
theorem formatFail_iff (passed tested : List Mode) :
    (decide (0 < tested.length)
      && decide ((passed.length : ℚ) / (tested.length : ℚ) < (8 : ℚ)/10)) = true
    ↔ ¬(tested ≠ [] →
        (8 : ℚ)/10 ≤ (passed.length : ℚ) / (tested.length : ℚ)) := by
  cases tested with
  | nil => simp
  | cons x xs => simp [not_le, Nat.succ_ne_zero]

/-- C1: the mastery judge grants mastery exactly when the row is not
already mastered and the five criteria of the specification all hold; on
success it writes state mastered, sets mastered_at to now and next_review_at
to now plus 7 days (168 hours) and increments the lifetime counter of the
user, and otherwise (in particular on an already-mastered row) it returns
false and changes nothing. -/
theorem checkMastery_matches_spec (s : UserConceptState) (now : ℚ) (userTotal : ℕ) :
    checkMastery s now userTotal =
      if s.state ≠ StateTag.mastered ∧ masteryCriteria s then
        (true,
         { s with
           state := StateTag.mastered
           mastered_at := some now
           next_review_at := some (now + 168) },
         userTotal + 1)
      else (false, s, userTotal) := by
  by_cases hm : s.state = StateTag.mastered
  · rw [checkMastery, if_pos hm, if_neg]
    rintro ⟨hne, -⟩
    exact hne hm
  · by_cases h1 : s.accuracy < (99 : ℚ)/100
    · rw [checkMastery, if_neg hm, if_pos h1, if_neg]
      rintro ⟨-, hacc, -⟩
      exact absurd hacc (not_le.mpr h1)
    · by_cases h2 : s.consecutive_perfect < 10
      · rw [checkMastery, if_neg hm, if_neg h1, if_pos h2, if_neg]
        rintro ⟨-, -, hcp, -⟩
        exact absurd hcp (not_le.mpr h2)
      · by_cases h3 : (pyTruthy s.baseline_response_time_ms
            && pyTruthy s.avg_response_time_ms
            && decide ((13 : ℚ)/10 < (s.avg_response_time_ms.getD 0 : ℚ)
              / (s.baseline_response_time_ms.getD 0 : ℚ))) = true
        · rw [checkMastery, if_neg hm, if_neg h1, if_neg h2, if_pos h3, if_neg]
          rintro ⟨-, -, -, hsp, -⟩
          exact (speedFail_iff _ _).mp h3 hsp
        · by_cases h4 : (decide (0 < s.formats_tested.length)
              && decide ((s.formats_passed.length : ℚ)
                / (s.formats_tested.length : ℚ) < (8 : ℚ)/10)) = true
          · rw [checkMastery, if_neg hm, if_neg h1, if_neg h2,
              if_neg (by simpa using h3), if_pos h4, if_neg]
            rintro ⟨-, -, -, -, hf, -⟩
            exact (formatFail_iff _ _).mp h4 hf
          · by_cases h5 : s.predicted_recall_probability < (95 : ℚ)/100
            · rw [checkMastery, if_neg hm, if_neg h1, if_neg h2,
                if_neg (by simpa using h3), if_neg (by simpa using h4),
                if_pos h5, if_neg]
              rintro ⟨-, -, -, -, -, hr⟩
              exact absurd hr (not_le.mpr h5)
            · rw [checkMastery, if_neg hm, if_neg h1, if_neg h2,
                if_neg (by simpa using h3), if_neg (by simpa using h4),
                if_neg h5, if_pos]
              refine ⟨hm, not_lt.mp h1, not_lt.mp h2, ?_, ?_, not_lt.mp h5⟩
              · intro hrec
                by_contra hgt
                exact h3 ((speedFail_iff _ _).mpr (fun hi => absurd (hi hrec) (not_le.mpr (not_le.mp hgt))))
              · intro htest
                by_contra hlt
                exact h4 ((formatFail_iff _ _).mpr (fun hi => absurd (hi htest) (not_le.mpr (not_le.mp hlt))))

/-- Helper: folding the strictly-greater argmax step over a suffix, starting
from a current best b, lands on an element that is b or lies in the suffix
and whose count (in the ambient list l) dominates b and every suffix
element. -/
theorem maxSkip_foldl_spec (l : List ℕ) (l₂ : List ℕ) (b : ℕ) :
    ∃ c, List.foldl (fun best x =>
        match best with
        | none => some x
        | some bb => if l.count bb < l.count x then some x else some bb)
        (some b) l₂ = some c
      ∧ (c = b ∨ c ∈ l₂)
      ∧ l.count b ≤ l.count c
      ∧ ∀ d ∈ l₂, l.count d ≤ l.count c := by
  induction l₂ generalizing b with
  | nil => exact ⟨b, rfl, Or.inl rfl, le_refl _, by simp⟩
  | cons x xs ih =>
    by_cases hx : l.count b < l.count x
    · obtain ⟨c, hc, hmem, hbc, hall⟩ := ih x
      refine ⟨c, ?_, ?_, le_of_lt (lt_of_lt_of_le hx hbc), ?_⟩
      · simpa [hx] using hc
      · rcases hmem with h | h
        · exact Or.inr (h ▸ List.mem_cons_self x xs)
        · exact Or.inr (List.mem_cons_of_mem x h)
      · intro d hd
        rcases List.mem_cons.mp hd with h | h
        · exact h ▸ hbc
        · exact hall d h
    · obtain ⟨c, hc, hmem, hbc, hall⟩ := ih b
      refine ⟨c, ?_, ?_, hbc, ?_⟩
      · simpa [hx] using hc
      · rcases hmem with h | h
        · exact Or.inl h
        · exact Or.inr (List.mem_cons_of_mem x h)
      · intro d hd
        rcases List.mem_cons.mp hd with h | h
        · exact h ▸ le_trans (not_lt.mp hx) hbc
        · exact hall d h

/-- Helper: on a nonempty list the argmax is some element of the list whose
count dominates the count of every element. -/
theorem maxSkipConcept_spec (l : List ℕ) (hl : l ≠ []) :
    ∃ c, maxSkipConcept l = some c ∧ c ∈ l ∧ ∀ d ∈ l, l.count d ≤ l.count c := by
  cases l with
  | nil => exact absurd rfl hl
  | cons x xs =>
    obtain ⟨c, hc, hmem, hbc, hall⟩ := maxSkip_foldl_spec (x :: xs) xs x
    refine ⟨c, ?_, ?_, ?_⟩
    · simpa [maxSkipConcept] using hc
    · rcases hmem with h | h
      · exact h ▸ List.mem_cons_self x xs
      · exact List.mem_cons_of_mem x h
    · intro d hd
      rcases List.mem_cons.mp hd with h | h
      · exact h ▸ hbc
      · exact hall d h

/-- Helper: a skip ratio above 3/10 forces at least one skipped row. -/
theorem skippedConcepts_ne_nil (recent : List RespEvent)
    (hr : (3 : ℚ)/10 < skipRatio recent) :
    skippedConcepts recent ≠ [] := by
  intro hnil
  have hflt : recent.filter (fun r => r.skipped) = [] := by
    simpa [skippedConcepts] using hnil
  by_cases hrec : recent = []
  · rw [skipRatio, if_pos hrec] at hr
    norm_num at hr
  · rw [skipRatio, if_neg hrec, hflt] at hr
    norm_num at hr

/-- C5: rescue takes precedence over every other scheduling stage — the
rescue stage yields no concept exactly when the 5-minute window is empty or
its skip ratio is at most 0.30, and whenever it yields a concept, the
window's ratio exceeds 0.30, wins every skip-count comparison among the
window's skipped rows, and get_next_question returns that concept under
forced mode MICRO_WINS regardless of what the validation and
optimal-challenge stages would pick. -/
theorem rescue_stage_spec (events : List RespEvent) (now : ℚ)
    (validationConcept : Option ℕ) (optimalConcept : ℕ) (optimalMode : Mode) :
    (findRescueConcept events now = none ↔
      recentResponses events now = []
        ∨ skipRatio (recentResponses events now) ≤ (3 : ℚ)/10)
    ∧ (∀ c, findRescueConcept events now = some c →
        recentResponses events now ≠ []
        ∧ (3 : ℚ)/10 < skipRatio (recentResponses events now)
        ∧ c ∈ skippedConcepts (recentResponses events now)
        ∧ (∀ d ∈ skippedConcepts (recentResponses events now),
            (skippedConcepts (recentResponses events now)).count d
              ≤ (skippedConcepts (recentResponses events now)).count c)
        ∧ getNextQuestionSelection events now validationConcept optimalConcept optimalMode
            = (c, Mode.MICRO_WINS)) := by
  constructor
  · by_cases hrec : recentResponses events now = []
    · simp [findRescueConcept, hrec]
    · by_cases hratio : (3 : ℚ)/10 < skipRatio (recentResponses events now)
      · obtain ⟨c, hc, -, -⟩ := maxSkipConcept_spec _
          (skippedConcepts_ne_nil _ hratio)
        rw [findRescueConcept]
        simp only [if_neg hrec, if_pos hratio,
          if_neg (skippedConcepts_ne_nil _ hratio), hc]
        simp [hrec, not_le.mpr hratio]
      · rw [findRescueConcept]
        simp [hrec, hratio, not_lt.mp hratio]
  · intro c hc
    have hrec : recentResponses events now ≠ [] := by
      intro hnil
      rw [findRescueConcept, if_pos hnil] at hc
      exact Option.noConfusion hc
    have hratio : (3 : ℚ)/10 < skipRatio (recentResponses events now) := by
      by_contra hle
      rw [findRescueConcept, if_neg hrec, if_neg hle] at hc
      exact Option.noConfusion hc
    obtain ⟨c₀, hc₀, hmem, hall⟩ := maxSkipConcept_spec _
      (skippedConcepts_ne_nil _ hratio)
    have hceq : c = c₀ := by
      rw [findRescueConcept, if_neg hrec, if_pos hratio,
        if_neg (skippedConcepts_ne_nil _ hratio), hc₀] at hc
      exact (Option.some.inj hc).symm
    subst hceq
    exact ⟨hrec, hratio, hmem, hall,
      by rw [getNextQuestionSelection.eq_def, hc]⟩

/-- Witness for C5: two events in the window, one of them a skip of concept
1 (ratio 1/2 above 0.30) — the cascade returns concept 1 under MICRO_WINS,
ignoring the validation and optimal-challenge stages. -/
theorem rescue_stage_spec_witness :
    getNextQuestionSelection
        [⟨1, true, 0⟩, ⟨2, false, 0⟩] 0 (some 9) 5 Mode.RAPID_FIRE
      = (1, Mode.MICRO_WINS) :=
  ((rescue_stage_spec [⟨1, true, 0⟩, ⟨2, false, 0⟩] 0 (some 9) 5 Mode.RAPID_FIRE).2 1
    (by
      norm_num [findRescueConcept, recentResponses, skipRatio, skippedConcepts,
        maxSkipConcept, List.filter, List.count, List.foldl]
      refine ⟨by simp, ?_⟩
      rw [if_neg (by simp)]
      norm_num)).2.2.2.2

/-- C6: after every answer-processing update the attempt counter has grown
by one, the correct counter by one exactly on a correct answer, and the
stored accuracy equals the quotient of the updated counters — it is
recomputed from them, never carried independently. -/
theorem accuracy_recomputed_each_update (s : UserConceptState) (c : Bool)
    (rt hes : ℕ) (m : Mode) (now newRecall : ℚ) :
    (updateConceptState s c rt hes m now newRecall).total_attempts
        = s.total_attempts + 1
    ∧ (updateConceptState s c rt hes m now newRecall).correct_attempts
        = s.correct_attempts + (if c then 1 else 0)
    ∧ (updateConceptState s c rt hes m now newRecall).accuracy
        = ((updateConceptState s c rt hes m now newRecall).correct_attempts : ℚ)
          / ((updateConceptState s c rt hes m now newRecall).total_attempts : ℚ) := by
  refine ⟨rfl, rfl, ?_⟩
  simp only [updateConceptState]

/-- C7: a correct answer increments consecutive_perfect by exactly one and
raises max_streak to the maximum of its old value and the new streak; any
other answer resets consecutive_perfect to exactly zero; max_streak never
decreases. -/
theorem streak_update_rule (s : UserConceptState) (c : Bool)
    (rt hes : ℕ) (m : Mode) (now newRecall : ℚ) :
    (updateConceptState s c rt hes m now newRecall).consecutive_perfect
        = (if c then s.consecutive_perfect + 1 else 0)
    ∧ (updateConceptState s c rt hes m now newRecall).max_streak
        = (if c then max s.max_streak (s.consecutive_perfect + 1) else s.max_streak)
    ∧ s.max_streak ≤ (updateConceptState s c rt hes m now newRecall).max_streak := by
  refine ⟨rfl, ?_, ?_⟩ <;> cases c <;>
    simp [updateConceptState]

/-- C8: mode selection is the pure function of the state tag and the
attempt counter that the specification tabulates, and the lazily created
row of a never-attempted concept (state untouched, zero attempts) selects
GUIDED_SOLVE. -/
theorem selectMode_pure (s : UserConceptState) :
    selectMode s = selectModeSpec s.state s.total_attempts
    ∧ initialConceptState.total_attempts = 0
    ∧ selectMode initialConceptState = Mode.GUIDED_SOLVE := by
  refine ⟨?_, rfl, rfl⟩
  cases hs : s.state <;> simp [selectMode, selectModeSpec, hs]

/-- Helper: what the update writes into formats_tested, read off the
definition. -/
theorem update_formats_tested_def (s : UserConceptState) (c : Bool)
    (rt hes : ℕ) (mo : Mode) (now nr : ℚ) :
    (updateConceptState s c rt hes mo now nr).formats_tested
      = if mo ∈ s.formats_tested then s.formats_tested
        else s.formats_tested ++ [mo] := rfl

/-- Helper: what the update writes into formats_passed, read off the
definition. -/
theorem update_formats_passed_def (s : UserConceptState) (c : Bool)
    (rt hes : ℕ) (mo : Mode) (now nr : ℚ) :
    (updateConceptState s c rt hes mo now nr).formats_passed
      = if mo ∈ s.formats_tested then s.formats_passed
        else if c = true then s.formats_passed ++ [mo]
        else s.formats_passed := rfl

/-- Helper: the update appends the current mode to formats_tested exactly
when it was not yet there. -/
theorem update_formats_tested_mem (s : UserConceptState) (c : Bool)
    (rt hes : ℕ) (mo : Mode) (now nr : ℚ) (m : Mode) :
    m ∈ (updateConceptState s c rt hes mo now nr).formats_tested ↔
      m ∈ s.formats_tested ∨ mo = m := by
  rw [update_formats_tested_def]
  by_cases hmo : mo ∈ s.formats_tested
  · rw [if_pos hmo]
    constructor
    · exact Or.inl
    · rintro (h | rfl)
      · exact h
      · exact hmo
  · rw [if_neg hmo]
    simp [List.mem_append, eq_comm]

/-- Helper: the update appends the current mode to formats_passed exactly
when the mode was not yet tested and the answer was correct. -/
theorem update_formats_passed_mem (s : UserConceptState) (c : Bool)
    (rt hes : ℕ) (mo : Mode) (now nr : ℚ) (m : Mode) :
    m ∈ (updateConceptState s c rt hes mo now nr).formats_passed ↔
      m ∈ s.formats_passed ∨ (mo ∉ s.formats_tested ∧ c = true ∧ mo = m) := by
  rw [update_formats_passed_def]
  by_cases hmo : mo ∈ s.formats_tested
  · rw [if_pos hmo]
    simp [hmo]
  · rw [if_neg hmo]
    cases c
    · simp [hmo]
    · simp [hmo, List.mem_append, eq_comm]

/-- Helper: the update preserves formats_passed being inside
formats_tested. -/
theorem update_formats_subset (s : UserConceptState) (c : Bool)
    (rt hes : ℕ) (mo : Mode) (now nr : ℚ)
    (hsub : ∀ m, m ∈ s.formats_passed → m ∈ s.formats_tested) :
    ∀ m, m ∈ (updateConceptState s c rt hes mo now nr).formats_passed →
      m ∈ (updateConceptState s c rt hes mo now nr).formats_tested := by
  intro m hm
  rw [update_formats_passed_mem] at hm
  rw [update_formats_tested_mem]
  rcases hm with h | ⟨hmo, hc, rfl⟩
  · exact Or.inl (hsub m h)
  · exact Or.inr rfl

/-- Helper: across a fold of updates, a mode is tested exactly when it was
already tested or some input attempts it. -/
theorem foldAnswers_tested_mem (inputs : List AnswerInput) :
    ∀ (s : UserConceptState) (m : Mode),
      m ∈ (foldAnswers s inputs).formats_tested ↔
        m ∈ s.formats_tested ∨ ∃ i ∈ inputs, i.mode = m := by
  induction inputs with
  | nil =>
    intro s m
    simp [foldAnswers]
  | cons i rest ih =>
    intro s m
    rw [show foldAnswers s (i :: rest)
        = foldAnswers (updateConceptState s i.is_correct i.response_time_ms
            i.hesitation_ms i.mode i.now i.recallValue) rest from rfl,
      ih, update_formats_tested_mem, List.exists_mem_cons_iff, or_assoc]

/-- Helper: across a fold of updates, a mode enters formats_passed exactly
when it was already passed, or was not yet tested and the first input
attempting it is correct. -/
theorem foldAnswers_passed_mem (inputs : List AnswerInput) :
    ∀ (s : UserConceptState),
      (∀ m, m ∈ s.formats_passed → m ∈ s.formats_tested) →
      ∀ m, m ∈ (foldAnswers s inputs).formats_passed ↔
        m ∈ s.formats_passed
          ∨ (m ∉ s.formats_tested ∧ firstAttemptCorrect inputs m) := by
  induction inputs with
  | nil =>
    intro s hsub m
    simp [foldAnswers, firstAttemptCorrect]
  | cons i rest ih =>
    intro s hsub m
    rw [show foldAnswers s (i :: rest)
        = foldAnswers (updateConceptState s i.is_correct i.response_time_ms
            i.hesitation_ms i.mode i.now i.recallValue) rest from rfl,
      ih _ (update_formats_subset _ _ _ _ _ _ _ hsub),
      update_formats_passed_mem, update_formats_tested_mem]
    by_cases him : i.mode = m
    · subst him
      by_cases hmem : i.mode ∈ s.formats_tested
      · simp [hmem, firstAttemptCorrect, List.filter_cons]
      · have hnp : i.mode ∉ s.formats_passed := fun h => hmem (hsub _ h)
        simp [hmem, hnp, firstAttemptCorrect, List.filter_cons]
    · simp [firstAttemptCorrect, List.filter_cons, him]
      try tauto

/-- Helper: a first-attempt-correct mode was attempted by some input. -/
theorem fac_attempted (inputs : List AnswerInput) (m : Mode)
    (h : firstAttemptCorrect inputs m) : ∃ i ∈ inputs, i.mode = m := by
  obtain ⟨i, hi, hc⟩ := h
  have hmem : i ∈ inputs.filter (fun j => decide (j.mode = m)) :=
    List.mem_of_mem_head? hi
  have := List.mem_filter.mp hmem
  exact ⟨i, this.1, of_decide_eq_true this.2⟩

/-- C4 (amended): for a fixed history all of whose correct-answer
timestamps lie strictly before the first evaluation time, the predicted
recall at any later evaluation time is no larger — recall never grows as
time advances past a history that is entirely in the past.  (The strictness
is needed: an event whose elapsed time is non-positive at the first
evaluation is skipped there but contributes later, and can raise the
value.) -/
theorem predictedRecall_antitone_of_past (n : ℕ) (ts : List ℚ) (now1 now2 : ℚ)
    (hpast : ∀ t ∈ ts, t < now1) (hle : now1 ≤ now2) :
    calculatePredictedRecall n ts now2 ≤ calculatePredictedRecall n ts now1 := by
  by_cases hn : n = 0
  · unfold calculatePredictedRecall
    rw [if_pos hn, if_pos hn]
  · by_cases hts : ts = []
    · unfold calculatePredictedRecall
      rw [if_neg hn, if_neg hn, if_pos hts, if_pos hts]
    · have hf1 : ts.filter (fun t => decide (0 < now1 - t)) = ts :=
        List.filter_eq_self.mpr (fun t ht => decide_eq_true (sub_pos.mpr (hpast t ht)))
      have hf2 : ts.filter (fun t => decide (0 < now2 - t)) = ts :=
        List.filter_eq_self.mpr (fun t ht =>
          decide_eq_true (sub_pos.mpr (lt_of_lt_of_le (hpast t ht) hle)))
      have hpos1 : 0 < activationSum ts now1 := by
        rw [activationSum, hf1]
        refine List.sum_pos _ ?_ (by simpa using hts)
        intro x hx
        obtain ⟨t, ht, rfl⟩ := List.mem_map.mp hx
        exact Real.rpow_pos_of_pos (by exact_mod_cast sub_pos.mpr (hpast t ht)) _
      have hpos2 : 0 < activationSum ts now2 := by
        rw [activationSum, hf2]
        refine List.sum_pos _ ?_ (by simpa using hts)
        intro x hx
        obtain ⟨t, ht, rfl⟩ := List.mem_map.mp hx
        exact Real.rpow_pos_of_pos
          (by exact_mod_cast sub_pos.mpr (lt_of_lt_of_le (hpast t ht) hle)) _
      have hSle : activationSum ts now2 ≤ activationSum ts now1 := by
        rw [activationSum, activationSum, hf1, hf2]
        refine List.sum_le_sum ?_
        intro t ht
        have h1 : (0 : ℝ) < ((now1 - t : ℚ) : ℝ) := by
          exact_mod_cast sub_pos.mpr (hpast t ht)
        have h2 : ((now1 - t : ℚ) : ℝ) ≤ ((now2 - t : ℚ) : ℝ) := by
          exact_mod_cast sub_le_sub_right hle t
        rw [Real.rpow_neg (le_of_lt h1),
          Real.rpow_neg (le_of_lt (lt_of_lt_of_le h1 h2))]
        exact inv_anti₀ (Real.rpow_pos_of_pos h1 _)
          (Real.rpow_le_rpow (le_of_lt h1) h2 (by norm_num))
      unfold calculatePredictedRecall
      rw [if_neg hn, if_neg hn, if_neg hts, if_neg hts,
        if_neg (ne_of_gt hpos1), if_neg (ne_of_gt hpos2),
        Real.exp_neg, Real.exp_neg, Real.exp_log hpos1, Real.exp_log hpos2]
      refine one_div_le_one_div_of_le (by positivity) ?_
      have hinv : (activationSum ts now1)⁻¹ ≤ (activationSum ts now2)⁻¹ :=
        inv_anti₀ hpos2 hSle
      linarith

/-- Witness for C4: one correct answer at hour 0, evaluated at hours 1 and
then 2 — the prediction does not increase. -/
theorem predictedRecall_antitone_witness :
    calculatePredictedRecall 1 [(0 : ℚ)] 2 ≤ calculatePredictedRecall 1 [(0 : ℚ)] 1 :=
  predictedRecall_antitone_of_past 1 [(0 : ℚ)] 1 2
    (by
      intro t ht
      simp only [List.mem_singleton] at ht
      rw [ht]
      norm_num)
    (by norm_num)

/-- Counterexample for C4 as stated: with a single correct answer at hour 0
the prediction is 0 when evaluated at hour 0 (the elapsed time is not
positive, so the event is skipped and the sum is empty) but 1/2 when
evaluated at hour 1 — recall grew as time advanced with no new events. -/
theorem predictedRecall_can_increase :
    ¬ (calculatePredictedRecall 1 [(0 : ℚ)] 1
        ≤ calculatePredictedRecall 1 [(0 : ℚ)] 0) := by
  have h0 : calculatePredictedRecall 1 [(0 : ℚ)] 0 = 0 := by
    have hA : activationSum [(0 : ℚ)] 0 = 0 := by
      rw [activationSum]
      norm_num
    unfold calculatePredictedRecall
    rw [if_neg (by norm_num), if_neg (List.cons_ne_nil _ _), if_pos hA]
  have hS : activationSum [(0 : ℚ)] 1 = 1 := by
    rw [activationSum]
    norm_num [Real.one_rpow]
  have h1 : calculatePredictedRecall 1 [(0 : ℚ)] 1 = 1/2 := by
    unfold calculatePredictedRecall
    rw [if_neg (by norm_num), if_neg (List.cons_ne_nil _ _),
      if_neg (by rw [hS]; exact one_ne_zero), hS, Real.log_one, neg_zero,
      Real.exp_zero]
    norm_num
  rw [h0, h1]
  norm_num

/-- A wrong first attempt in mode RAPID_FIRE. -/
def cexWrongFirst : AnswerInput := ⟨false, 100, 0, Mode.RAPID_FIRE, 0, 0⟩

/-- A correct second attempt in the same mode. -/
def cexRightSecond : AnswerInput := ⟨true, 100, 0, Mode.RAPID_FIRE, 1, 0⟩

/-- C9 (amended): after every sequence of answer-processing updates from the
lazily created row, formats_passed is contained in formats_tested,
formats_tested is exactly the set of modes some input attempts, and
formats_passed is exactly the set of modes whose first attempt was
correct. -/
theorem formats_sets_spec (inputs : List AnswerInput) :
    (∀ m, m ∈ (runAnswers inputs).formats_passed →
        m ∈ (runAnswers inputs).formats_tested)
    ∧ (∀ m, m ∈ (runAnswers inputs).formats_tested ↔ ∃ i ∈ inputs, i.mode = m)
    ∧ (∀ m, m ∈ (runAnswers inputs).formats_passed ↔
        firstAttemptCorrect inputs m) := by
  have hsub0 : ∀ m : Mode, m ∈ initialConceptState.formats_passed →
      m ∈ initialConceptState.formats_tested := by
    intro m hm
    simp [initialConceptState] at hm
  have htested := foldAnswers_tested_mem inputs initialConceptState
  have hpassed := foldAnswers_passed_mem inputs initialConceptState hsub0
  have hrun : runAnswers inputs = foldAnswers initialConceptState inputs := rfl
  have hpassed_iff : ∀ m, m ∈ (runAnswers inputs).formats_passed ↔
      firstAttemptCorrect inputs m := by
    intro m
    rw [hrun, hpassed m]
    simp [initialConceptState]
  have htested_iff : ∀ m, m ∈ (runAnswers inputs).formats_tested ↔
      ∃ i ∈ inputs, i.mode = m := by
    intro m
    rw [hrun, htested m]
    simp [initialConceptState]
  refine ⟨?_, htested_iff, hpassed_iff⟩
  intro m hm
  exact (htested_iff m).mpr (fac_attempted inputs m ((hpassed_iff m).mp hm))

/-- Counterexample for C9 as stated: a wrong then a correct attempt in one
mode leave that mode tested and correctly answered at least once, yet not
in formats_passed — only a correct first attempt in a mode enters
formats_passed. -/
theorem formats_passed_counterexample :
    ¬ (∀ (inputs : List AnswerInput) (m : Mode),
        m ∈ (runAnswers inputs).formats_passed ↔
          (m ∈ (runAnswers inputs).formats_tested
            ∧ ∃ i ∈ inputs, i.mode = m ∧ i.is_correct = true)) := by
  intro h
  have hsub0 : ∀ m : Mode, m ∈ initialConceptState.formats_passed →
      m ∈ initialConceptState.formats_tested := by
    intro m hm
    simp [initialConceptState] at hm
  have hrun : runAnswers [cexWrongFirst, cexRightSecond]
      = foldAnswers initialConceptState [cexWrongFirst, cexRightSecond] := rfl
  have htest : Mode.RAPID_FIRE ∈
      (runAnswers [cexWrongFirst, cexRightSecond]).formats_tested := by
    rw [hrun, foldAnswers_tested_mem]
    exact Or.inr ⟨cexWrongFirst, by simp, rfl⟩
  have hex : ∃ i ∈ [cexWrongFirst, cexRightSecond],
      i.mode = Mode.RAPID_FIRE ∧ i.is_correct = true :=
    ⟨cexRightSecond, by simp, rfl, rfl⟩
  have hpass := (h [cexWrongFirst, cexRightSecond] Mode.RAPID_FIRE).mpr ⟨htest, hex⟩
  rw [hrun, foldAnswers_passed_mem _ _ hsub0] at hpass
  rcases hpass with hp | ⟨-, hf⟩
  · simp [initialConceptState] at hp
  · obtain ⟨j, hj, hjc⟩ := hf
    simp [cexWrongFirst, cexRightSecond, List.filter_cons] at hj
    rw [← hj] at hjc
    simp [cexWrongFirst] at hjc

/-- C10: no row written by the answer-processing update satisfies the
validation stage filter (state learning together with accuracy at least
0.99 and a streak of at least 10): the classification chain sends exactly
that combination to proficient, so MASTERY_VALIDATION is unreachable from
rows the engine itself writes. -/
theorem validation_filter_unreachable (s : UserConceptState) (c : Bool)
    (rt hes : ℕ) (m : Mode) (now newRecall : ℚ) :
    validationEligible (updateConceptState s c rt hes m now newRecall) = false
    ∧ (((99 : ℚ)/100 ≤ (updateConceptState s c rt hes m now newRecall).accuracy
          ∧ 10 ≤ (updateConceptState s c rt hes m now newRecall).consecutive_perfect) →
        (updateConceptState s c rt hes m now newRecall).state
          = StateTag.proficient) := by
  constructor
  · simp only [validationEligible, updateConceptState]
    split_ifs with h1 h2 h3 <;> simp_all
  · intro hb
    obtain ⟨hacc, hcp⟩ := hb
    cases c with
    | false =>
      exfalso
      simp [updateConceptState] at hcp
    | true =>
      simp only [updateConceptState] at hacc hcp ⊢
      norm_num at hacc hcp ⊢
      split_ifs with h1 h2 h3 <;> first
        | rfl
        | linarith
        | exact absurd ⟨hacc, hcp⟩ h2

/-- C2: an incorrect answer processed on a mastered concept leaves the row
in state struggling, not mastered — the classification chain of
_update_concept_state has no case preserving mastered, so mastery is not
the one-way terminal transition the specification states. -/
theorem mastered_state_demoted_by_answer :
    (processAnswerUpdate masteredExampleState false 1000 0 Mode.RAPID_FIRE 0 0 0).2.1.state
        = StateTag.struggling
    ∧ (processAnswerUpdate masteredExampleState false 1000 0 Mode.RAPID_FIRE 0 0 0).2.1.state
        ≠ StateTag.mastered := by
  have h : (processAnswerUpdate masteredExampleState false 1000 0
      Mode.RAPID_FIRE 0 0 0).2.1.state = StateTag.struggling := by
    norm_num [processAnswerUpdate, updateConceptState, checkMastery,
      masteredExampleState, initialConceptState, pyTruthy]
  refine ⟨h, ?_⟩
  rw [h]
  exact fun hc => StateTag.noConfusion hc

/-- C3: the answer evaluator is exactly the normalize-then-threshold rule of
the specification — lowercase and trim both strings, exact match is
correct, otherwise the Jaccard index of the whitespace token sets (zero
when either set is empty) gives correct above 0.9, partial on (0.7, 0.9]
and incorrect below. -/
theorem evaluateAnswer_matches_spec (user_answer answer_text : String) :
    evaluateAnswer user_answer answer_text
      = evaluateAnswerSpec user_answer answer_text := by
  simp only [evaluateAnswer, evaluateAnswerSpec, calculateSimilarity]
  by_cases h1 : pyStrip (pyLower user_answer) = pyStrip (pyLower answer_text)
  · simp [h1]
  · simp only [if_neg h1]
    exact threshold_if_eq _

